import Mathlib

/-!
Verification of `reliapy` (modules `Model.py`, `Random.py`, `MonteCarlo.py`)
against its natural-language specification.

The Python code is shallowly embedded:
* Python exceptions become an explicit `PyError` sum, and fallible code
  returns `Except PyError _`.
* Dynamically typed arguments (which may be `None`, a list, or anything
  else) become small inductive types (`PyObj`, `PyDists`, `PyInt`, `PyQ`).
* Calls into external libraries (`scipy.stats` distributions,
  `numpy.linalg.matrix_rank`, the resolved Grassmann distance function)
  are abstracted as function parameters: the embedding is parametric in
  the external routine, exactly as the Python code is parametric in the
  library it calls by name lookup.
* A Python method that could mutate `self` is embedded as a function
  returning the updated `self` together with the method result, so frame
  conditions ("the method leaves the object unchanged") are real theorems
  about the embedding.
* String comparisons written `opt is 'pdf'` in the source compare interned
  string literals and behave as equality on the literal option names used
  throughout; they are embedded as string equality.
-/

/-- Python exception values raised by the reliapy code. -/
inductive PyError where
  | typeError (msg : String)
  | valueError (msg : String)
  | attributeError (msg : String)
  | indexError (msg : String)
  | notImplementedError (msg : String)
deriving DecidableEq

/-- A dynamically typed Python argument that the code tests with
`is None` / `isinstance(·, list)`: either `None`, a list of values, or
some other (non-list, non-None) object. -/
inductive PyObj (α : Type) where
  | none
  | list (xs : List α)
  | other
deriving DecidableEq

/-- Python list subscription `xs[i]` for a natural index: returns the
element, or raises `IndexError` when out of range. -/
def listIndex {α : Type} (xs : List α) (i : Nat) : Except PyError α :=
  match xs.get? i with
  | some x => .ok x
  | Option.none => .error (.indexError "list index out of range")

/-- `Model.StateLimit` after `__init__`: the constructor stores the
callable `state_limit` and sets `g = []`.  Note that `__init__` receives a
`state_limit_grad` argument but never assigns `self.state_limit_grad`, so
the object has no such attribute. -/
structure StateLimit (α β : Type) where
  state_limit : α → β
  g : List β

/-- `StateLimit.__init__(state_limit, state_limit_grad)`: a callable
`state_limit` (modelled as `some f`; `none` models `None` or any
non-callable) is stored and `g` is set to `[]`; otherwise `TypeError` is
raised.  The `state_limit_grad` argument is accepted and discarded — the
source never writes `self.state_limit_grad`. -/
def StateLimit.init {α β : Type} (state_limit : Option (α → β))
    (state_limit_grad : Option (α → β)) : Except PyError (StateLimit α β) :=
  match state_limit, state_limit_grad with
  | some f, _ => .ok ⟨f, []⟩
  | Option.none, _ => .error (.typeError "RELIAPY: state_limit must be callable.")

/-- The samples-validation step shared by `StateLimit.run` and
`StateLimit.drun` (`Model.py` lines 84-90 and 123-129): `None` and
non-list inputs raise `ValueError`; a list yields `nsim = len(samples)`. -/
def samplesCheck {α : Type} (samples : PyObj α) : Except PyError Nat :=
  match samples with
  | .none => .error (.valueError "RELIAPY: Samples must be provided as input.")
  | .list xs => .ok xs.length
  | .other => .error (.valueError "RELIAPY: Samples must be passed as a list")

/-- The loop body of `StateLimit.run`: `g = []`, then
`for i in range(nsim): g.append(self.state_limit(samples[i]))`.
Iterating `i` over `range(len(samples))` and indexing visits the list
elements in order. -/
def runLoop {α β : Type} (f : α → β) (samples : List α) : List β :=
  samples.foldl (fun g s => g ++ [f s]) []

/-- `StateLimit.run(samples)`: validate `samples`, then evaluate the
stored `state_limit` on each sample and collect the results in `g`
(a local variable, returned to the caller).  `self` is never written, so
the method returns the unchanged object alongside the result. -/
def StateLimit.run {α β : Type} (sl : StateLimit α β) (samples : PyObj α) :
    StateLimit α β × Except PyError (List β) :=
  match samples with
  | .none => (sl, .error (.valueError "RELIAPY: Samples must be provided as input."))
  | .list xs => (sl, .ok (runLoop sl.state_limit xs))
  | .other => (sl, .error (.valueError "RELIAPY: Samples must be passed as a list"))

/-- `StateLimit.drun(samples)`: validate `samples`, then
`for i in range(nsim): dg.append(self.state_limit_grad(samples[i]))`.
Because `__init__` never assigns `self.state_limit_grad`, the attribute
access in the first loop iteration raises `AttributeError`; with zero
iterations (empty list) the empty `dg` is returned. -/
def StateLimit.drun {α β : Type} (sl : StateLimit α β) (samples : PyObj α) :
    StateLimit α β × Except PyError (List β) :=
  match samples with
  | .none => (sl, .error (.valueError "RELIAPY: Samples must be provided as input."))
  | .list [] => (sl, .ok [])
  | .list (_ :: _) =>
      (sl, .error (.attributeError "StateLimit object has no attribute state_limit_grad"))
  | .other => (sl, .error (.valueError "RELIAPY: Samples must be passed as a list"))

/- ------------------------------------------------------------------ -/
/- Helper lemmas -/

theorem runLoop_eq_map {α β : Type} (f : α → β) (xs : List α) :
    runLoop f xs = xs.map f := by
  have h : ∀ (ys : List α) (acc : List β),
      ys.foldl (fun g s => g ++ [f s]) acc = acc ++ ys.map f := by
    intro ys
    induction ys with
    | nil => intro acc; simp
    | cons y ys ih => intro acc; simp [List.foldl_cons, ih]
  simpa using h xs []

/- ------------------------------------------------------------------ -/
/- Claims about StateLimit -/

/-- C1: for a `StateLimit` constructed with a callable `state_limit`,
`run(samples)` returns the list obtained by applying `state_limit` to each
element of `samples` in order; the result has the same length as
`samples`, and `run` on the empty list returns the empty list. -/
theorem claim_C1_run_maps {α β : Type} (f : α → β) (gr : Option (α → β))
    (sl : StateLimit α β) (h : StateLimit.init (some f) gr = .ok sl)
    (xs : List α) :
    (sl.run (PyObj.list xs)).2 = .ok (xs.map f) ∧
      (xs.map f).length = xs.length ∧
      (sl.run (PyObj.list [])).2 = .ok ([] : List β) := by
  have hsl : sl = ⟨f, []⟩ := by
    simpa [StateLimit.init] using h.symm
  subst hsl
  refine ⟨?_, by simp, ?_⟩ <;> simp [StateLimit.run, runLoop_eq_map]

theorem claim_C1_run_maps_witness :
    ((StateLimit.mk (fun n : Nat => n + 1) []).run (PyObj.list [1, 2])).2
        = .ok [2, 3] ∧
      (([1, 2] : List Nat).map (fun n => n + 1)).length = ([1, 2] : List Nat).length ∧
      ((StateLimit.mk (fun n : Nat => n + 1) []).run (PyObj.list [])).2
        = .ok ([] : List Nat) :=
  claim_C1_run_maps (fun n : Nat => n + 1) Option.none
    (StateLimit.mk (fun n : Nat => n + 1) []) rfl [1, 2]

/-- C2 (code bug): a `StateLimit` constructed with a callable
`state_limit` and a gradient `state_limit_grad` is built successfully, yet
`drun` on the non-empty list `[0]` raises `AttributeError` instead of
returning the gradient values, because `__init__` never stores
`state_limit_grad` on the instance. -/
theorem claim_C2_drun_attribute_error :
    StateLimit.init (some (fun n : Int => n)) (some (fun n : Int => n))
        = .ok (StateLimit.mk (fun n : Int => n) []) ∧
      ((StateLimit.mk (fun n : Int => n) []).drun (PyObj.list [0])).2
        = .error (.attributeError "StateLimit object has no attribute state_limit_grad") :=
  ⟨rfl, rfl⟩

/-- C4: `run` and `drun` raise `ValueError` exactly on bad input — when
`samples` is `None` or not a list — and on every list input the
samples-validation step succeeds (there is no retry or other failure
handling; `run` on a list returns normally). -/
theorem claim_C4_samples_validation {α β : Type} (sl : StateLimit α β)
    (xs : List α) :
    (sl.run PyObj.none).2
        = .error (.valueError "RELIAPY: Samples must be provided as input.") ∧
      (sl.run PyObj.other).2
        = .error (.valueError "RELIAPY: Samples must be passed as a list") ∧
      (sl.drun PyObj.none).2
        = .error (.valueError "RELIAPY: Samples must be provided as input.") ∧
      (sl.drun PyObj.other).2
        = .error (.valueError "RELIAPY: Samples must be passed as a list") ∧
      samplesCheck (PyObj.list xs) = .ok xs.length ∧
      (sl.run (PyObj.list xs)).2 = .ok (runLoop sl.state_limit xs) := by
  refine ⟨rfl, rfl, rfl, rfl, rfl, rfl⟩

/-- C8: calling `run` leaves every attribute of the object unchanged — the
method returns the unchanged `self`, and the attribute `g` keeps the
empty-list value set at construction; results are only returned to the
caller, never stored on the instance. -/
theorem claim_C8_run_frame {α β : Type} (f : α → β) (gr : Option (α → β))
    (sl : StateLimit α β) (h : StateLimit.init (some f) gr = .ok sl)
    (samples : PyObj α) :
    (sl.run samples).1 = sl ∧ sl.g = [] ∧ ((sl.run samples).1).g = [] := by
  have hsl : sl = ⟨f, []⟩ := by
    simpa [StateLimit.init] using h.symm
  subst hsl
  refine ⟨?_, rfl, ?_⟩ <;> cases samples <;> rfl

theorem claim_C8_run_frame_witness :
    ((StateLimit.mk (fun n : Nat => n + 1) []).run (PyObj.list [5])).1
        = StateLimit.mk (fun n : Nat => n + 1) [] ∧
      (StateLimit.mk (fun n : Nat => n + 1) []).g = [] ∧
      (((StateLimit.mk (fun n : Nat => n + 1) []).run (PyObj.list [5])).1).g = [] :=
  claim_C8_run_frame (fun n : Nat => n + 1) Option.none
    (StateLimit.mk (fun n : Nat => n + 1) []) rfl (PyObj.list [5])

/- ------------------------------------------------------------------ -/
/- Random.py: Variables and Processes -/

/-- The `distributions` argument of `Variables.__init__`: `None`, a list
of scipy distribution names, or some other (invalid) object. -/
inductive PyDists where
  | none
  | list (l : List String)
  | other
deriving DecidableEq

/-- `Random.Variables` after `__init__`: the list of distribution names
and the stored count `nrv` (kept as a separate attribute, as in the
source). -/
structure Variables where
  distributions : List String
  nrv : Nat
deriving DecidableEq

/-- The trailing check of `Variables.__init__`: after the attributes are
set, the source re-checks `self.nrv == len(self.distributions)` and
raises `ValueError` on mismatch. -/
def checkNrv (v : Variables) : Except PyError Variables :=
  if v.nrv ≠ v.distributions.length then
    .error (.valueError "RELIAPY: nrv must be equal to the number of distributions.")
  else
    .ok v

/-- `Variables.__init__(distributions)`: a list is stored with
`nrv = len(distributions)`; `None` defaults to `['norm']` with `nrv = 1`;
any other object raises `TypeError`.  The constructed object then passes
through the trailing `nrv` check. -/
def Variables.init (distributions : PyDists) : Except PyError Variables :=
  match distributions with
  | .list l => checkNrv ⟨l, l.length⟩
  | .none => checkNrv ⟨["norm"], 1⟩
  | .other => .error (.typeError "RELIAPY: not valid type for distributions.")

/-- The `nsamples` argument of `Variables.sampling`: an integer, or some
other (non-int) object. -/
inductive PyInt where
  | int (n : Int)
  | other
deriving DecidableEq

/-- `Variables.sampling(nsamples, parameters)`: reject a non-integer
`nsamples` with `TypeError` and `nsamples < 1` with `ValueError`; then
`for i in range(self.nrv)` look up `parameters[i]`, resolve
`stats.<distributions[i]>.rvs` by name and call it with `size=nsamples`
and the parameter set.  The scipy sampling routine is abstracted as the
parameter `rvs` (name of the distribution, size, parameter set). -/
def Variables.sampling {P S : Type} (v : Variables) (rvs : String → Int → P → S)
    (nsamples : PyInt) (parameters : List P) : Except PyError (List S) :=
  match nsamples with
  | .other => .error (.typeError "RELIAPY: nsamples must integer.")
  | .int n =>
    if n < 1 then
      .error (.valueError "RELIAPY: nsamples must be larger than or equal to one.")
    else
      (List.range v.nrv).foldlM (fun acc i => do
        let params ← listIndex parameters i
        let dist ← listIndex v.distributions i
        pure (acc ++ [rvs dist n params])) []

/-- `Random.Processes`: an (attribute-less) class whose constructor
always raises. -/
structure Processes where

/-- `Processes.__init__()`: unconditionally raises
`NotImplementedError`. -/
def Processes.init : Except PyError Processes :=
  .error (.notImplementedError "RELIAPY: please, wait for the next version!")

/-- Modelled from the spec: `MonteCarlo.py` ends with a second definition
of `class MonteCarlo` that is absent from the source snapshot; per the
spec it "completely discards the first" definition and is "reduced to a
single unused stub method `MCS` returning its input unchanged" — reducing
"the class to returning an input integer unchanged".  `MCS` is that stub
method on the rebound (second) class. -/
def MonteCarloStub.MCS (a : Int) : Int := a

/- ------------------------------------------------------------------ -/
/- Claims C3, C9, C10 -/

/-- C3: in the Monte Carlo module the second of the two conflicting
`MonteCarlo` class definitions replaces the first with a single stub
method `MCS` that, for every input integer, returns that input
unchanged — `MCS` is the identity on its argument. -/
theorem claim_C3_mcs_identity (a : Int) : MonteCarloStub.MCS a = a := rfl

/-- C9: every successfully constructed `Variables` object satisfies
`nrv = len(distributions)`; constructing with `distributions=None` yields
`distributions = ['norm']` and `nrv = 1`, and a non-None non-list
argument raises `TypeError`. -/
theorem claim_C9_variables_invariant (d : PyDists) (v : Variables)
    (h : Variables.init d = .ok v) :
    v.nrv = v.distributions.length ∧
      Variables.init PyDists.none = .ok ⟨["norm"], 1⟩ ∧
      Variables.init PyDists.other
        = .error (.typeError "RELIAPY: not valid type for distributions.") := by
  refine ⟨?_, rfl, rfl⟩
  cases d with
  | list l =>
      have hv : v = ⟨l, l.length⟩ := by
        simpa [Variables.init, checkNrv] using h.symm
      simp [hv]
  | none =>
      have hv : v = ⟨["norm"], 1⟩ := by
        simpa [Variables.init, checkNrv] using h.symm
      simp [hv]
  | other => simp [Variables.init] at h

theorem claim_C9_variables_invariant_witness :
    (⟨["expon", "norm"], 2⟩ : Variables).nrv
        = (⟨["expon", "norm"], 2⟩ : Variables).distributions.length ∧
      Variables.init PyDists.none = .ok ⟨["norm"], 1⟩ ∧
      Variables.init PyDists.other
        = .error (.typeError "RELIAPY: not valid type for distributions.") :=
  claim_C9_variables_invariant (PyDists.list ["expon", "norm"]) ⟨["expon", "norm"], 2⟩ rfl

/-- C10: every attempt to construct a `Processes` object raises
`NotImplementedError`, so construction never returns an instance. -/
theorem claim_C10_processes_not_implemented :
    Processes.init
      = .error (.notImplementedError "RELIAPY: please, wait for the next version!") := rfl

/- ------------------------------------------------------------------ -/
/- Monadic helper lemmas for Except folds -/

theorem except_bind_ok {ε α β : Type} (a : α) (f : α → Except ε β) :
    ((.ok a : Except ε α) >>= f) = f a := rfl

theorem except_bind_error {ε α β : Type} (e : ε) (f : α → Except ε β) :
    ((.error e : Except ε α) >>= f) = .error e := rfl

theorem listIndex_cons_zero {α : Type} (a : α) (l : List α) :
    listIndex (a :: l) 0 = .ok a := rfl

theorem listIndex_cons_succ {α : Type} (a : α) (l : List α) (i : Nat) :
    listIndex (a :: l) (i + 1) = listIndex l i := rfl

/-- The sampling loop of `Variables.sampling`, evaluated: when the first
`k` indices are within bounds of both lists, the fold succeeds and
appends one scipy result per index. -/
theorem sampling_foldlM_ok {P S : Type} (rvs : String → Int → P → S) (n : Int)
    (pd : P) :
    ∀ (k : Nat) (ds : List String) (ps : List P) (acc : List S),
      k ≤ ds.length → k ≤ ps.length →
      (List.range k).foldlM (fun acc i => do
          let params ← listIndex ps i
          let dist ← listIndex ds i
          pure (acc ++ [rvs dist n params])) acc
        = .ok (acc ++ (List.range k).map fun i => rvs (ds.getD i "") n (ps.getD i pd)) := by
  intro k
  induction k with
  | zero =>
      intro ds ps acc _ _
      simp only [List.range_zero, List.foldlM_nil, List.map_nil, List.append_nil]
      rfl
  | succ k ih =>
      intro ds ps acc hds hps
      cases ds with
      | nil => simp at hds
      | cons d ds =>
          cases ps with
          | nil => simp at hps
          | cons p ps =>
              have hds' : k ≤ ds.length := by
                simp only [List.length_cons] at hds; omega
              have hps' : k ≤ ps.length := by
                simp only [List.length_cons] at hps; omega
              rw [List.range_succ_eq_map, List.foldlM_cons]
              simp only [List.foldlM_map, Nat.succ_eq_add_one, listIndex_cons_zero,
                listIndex_cons_succ, except_bind_ok, pure_bind]
              rw [ih ds ps (acc ++ [rvs d n p]) hds' hps']
              simp [List.map_map, Function.comp_def]

/-- C6: for every `Variables` object (with its `nrv`/`distributions`
invariant and enough parameter sets), `sampling(nsamples, parameters)`
with an integer `nsamples ≥ 1` returns one entry per random variable —
entry `i` is the scipy sampling routine looked up by the name of
distribution `i`, called with `size = nsamples` and the `i`-th parameter
set — and the result has length `nrv`; a non-integer `nsamples` raises
`TypeError` and an integer `nsamples < 1` raises `ValueError`. -/
theorem claim_C6_sampling {P S : Type} (v : Variables) (rvs : String → Int → P → S)
    (parameters : List P) (pd : P) (n m : Int)
    (h1 : v.nrv = v.distributions.length) (h2 : v.nrv ≤ parameters.length)
    (hn : 1 ≤ n) (hm : m < 1) :
    (v.sampling rvs (PyInt.int n) parameters
        = .ok ((List.range v.nrv).map fun i =>
            rvs (v.distributions.getD i "") n (parameters.getD i pd)) ∧
      ((List.range v.nrv).map fun i =>
          rvs (v.distributions.getD i "") n (parameters.getD i pd)).length = v.nrv) ∧
      v.sampling rvs (PyInt.int m) parameters
        = .error (.valueError "RELIAPY: nsamples must be larger than or equal to one.") ∧
      v.sampling rvs PyInt.other parameters
        = .error (.typeError "RELIAPY: nsamples must integer.") := by
  refine ⟨⟨?_, by simp⟩, ?_, rfl⟩
  · have hnn : ¬ n < 1 := by omega
    simp only [Variables.sampling, hnn, if_false]
    rw [sampling_foldlM_ok rvs n pd v.nrv v.distributions parameters [] h1.le h2]
    simp
  · simp [Variables.sampling, hm]

theorem claim_C6_sampling_witness :
    ((⟨["norm"], 1⟩ : Variables).sampling (fun s k p => (s, k, p)) (PyInt.int 2) [7]
        = .ok ((List.range (1 : Nat)).map fun i =>
            ((["norm"].getD i ""), (2 : Int), ([7].getD i (0 : Nat)))) ∧
      ((List.range (1 : Nat)).map fun i =>
          ((["norm"].getD i ""), (2 : Int), ([7].getD i (0 : Nat)))).length = 1) ∧
      (⟨["norm"], 1⟩ : Variables).sampling (fun s k p => (s, k, p)) (PyInt.int 0) [7]
        = .error (.valueError "RELIAPY: nsamples must be larger than or equal to one.") ∧
      (⟨["norm"], 1⟩ : Variables).sampling (fun s k p => (s, k, p)) PyInt.other [7]
        = .error (.typeError "RELIAPY: nsamples must integer.") :=
  claim_C6_sampling (⟨["norm"], 1⟩ : Variables) (fun s k p => (s, k, p)) [7] 0 2 0
    rfl (by decide) (by decide) (by decide)

/- ------------------------------------------------------------------ -/
/- Random.py: Variables.probability -/

/-- The `q` argument of `Variables.probability`: `None`, a list of
numbers, or a single number (an `int` or `float`, modelled as a
rational). -/
inductive PyQ where
  | none
  | list (l : List ℚ)
  | scalar (c : ℚ)
deriving DecidableEq

/-- The `q` normalization at the top of `probability`: `numq` becomes the
length of a list `q`, or `1` for a scalar `q` which is wrapped into
`[q]`; a `None` stays `None` with `numq = 0`. -/
def qNorm : PyQ → Nat × Option (List ℚ)
  | .none => (0, Option.none)
  | .list l => (l.length, some l)
  | .scalar c => (1, some [c])

/-- The option names of the density/distribution branch of
`probability`. -/
def densityOpts : List String := ["pdf", "pmf", "cdf", "logpdf", "logpmf", "logcdf", "sf"]

/-- The option names of the quantile branch of `probability`. -/
def quantileOpts : List String := ["ppf", "isf"]

/-- The per-iteration remapping of `opt` in `probability`: for a discrete
distribution, `pdf`/`logpdf` become `pmf`/`logpmf`; for a continuous one,
`pmf`/`logpmf` become `pdf`/`logpdf`.  (The source writes two successive
`if`s; after the first fires the second cannot, so this equals the
if/else-if chain.) -/
def remapOpt (isDiscrete : Bool) (opt : String) : String :=
  if isDiscrete then
    if opt = "pdf" then "pmf" else if opt = "logpdf" then "logpmf" else opt
  else
    if opt = "pmf" then "pdf" else if opt = "logpmf" then "logpdf" else opt

/-- The quantile validation loop of `probability`:
`for j in range(numq): if q[j]<0 or q[j]>1: raise ValueError(...)`. -/
def checkQ (ql : List ℚ) (numq : Nat) : Except PyError Unit :=
  (List.range numq).foldlM (fun _ j => do
    let qj ← listIndex ql j
    if qj < 0 ∨ qj > 1 then
      Except.error (.valueError "RELIAPY: q cannot be lower than zero or larger than one.")
    else
      Except.ok ()) ()

/-- One iteration (index `i`) of the loop in `Variables.probability`,
threading the mutated `opt` and the accumulating `prob_out` as state.
`discrete` abstracts `isinstance(eval('stats.'+name), stats.rv_discrete)`;
`scipyD`, `scipyQ` and `scipyS` abstract the scipy routine that
`eval('stats.'+name+'.'+opt)` resolves, as it is called in the
density branch (`fun_scipy(x, **params)`), the quantile branch
(`fun_scipy(q, **params)`) and the stats branch. -/
def probStep {X P R : Type} (discrete : String → Bool)
    (scipyD : String → String → X → P → R)
    (scipyQ : String → String → List ℚ → P → R) (scipyS : String → P → R)
    (dists : List String) (parameters : List P) (x : Option X)
    (qv : Option (List ℚ)) (numq : Nat) (st : String × List R) (i : Nat) :
    Except PyError (String × List R) := do
  let params ← listIndex parameters i
  let dist ← listIndex dists i
  let opt := remapOpt (discrete dist) st.1
  let acc ←
    if opt ∈ densityOpts then
      match x with
      | Option.none => Except.error (.valueError "RELIAPY: x cannot be NoneType.")
      | some xv => Except.ok (st.2 ++ [scipyD dist opt xv params])
    else
      Except.ok st.2
  let acc ←
    if opt ∈ quantileOpts then
      match qv with
      | Option.none => Except.error (.valueError "RELIAPY: q cannot be NoneType.")
      | some ql => do
          let _ ← checkQ ql numq
          Except.ok (acc ++ [scipyQ dist opt ql params])
    else if opt = "stats" then
      Except.ok (acc ++ [scipyS dist params])
    else
      Except.ok acc
  Except.ok (opt, acc)

/-- `Variables.probability(x, q, parameters, opt)`: remap `icdf` to
`ppf`, normalize `q`, then `for i in range(self.nrv)` run the loop body
(`probStep`) and return the accumulated `prob_out`. -/
def Variables.probability {X P R : Type} (v : Variables) (discrete : String → Bool)
    (scipyD : String → String → X → P → R)
    (scipyQ : String → String → List ℚ → P → R) (scipyS : String → P → R)
    (x : Option X) (q : PyQ) (parameters : List P) (opt : String) :
    Except PyError (List R) := do
  let opt := if opt = "icdf" then "ppf" else opt
  let nq := qNorm q
  let st ← (List.range v.nrv).foldlM
    (probStep discrete scipyD scipyQ scipyS v.distributions parameters x nq.2 nq.1)
    (opt, [])
  Except.ok st.2

/- ------------------------------------------------------------------ -/
/- Lemmas for Variables.probability -/

theorem foldlM_error_head {σ α : Type} (f : σ → α → Except PyError σ) (b : σ)
    (a : α) (l : List α) (e : PyError) (h : f b a = .error e) :
    (a :: l).foldlM f b = .error e := by
  rw [List.foldlM_cons, h]
  rfl

theorem probStep_succ {X P R : Type} (discrete : String → Bool)
    (scipyD : String → String → X → P → R)
    (scipyQ : String → String → List ℚ → P → R) (scipyS : String → P → R)
    (d : String) (ds : List String) (p : P) (ps : List P) (x : Option X)
    (qv : Option (List ℚ)) (numq : Nat) (st : String × List R) (i : Nat) :
    probStep discrete scipyD scipyQ scipyS (d :: ds) (p :: ps) x qv numq st (i + 1)
      = probStep discrete scipyD scipyQ scipyS ds ps x qv numq st i := rfl

theorem remap_remap (opt : String) (h : opt ∈ densityOpts) (b b' : Bool) :
    remapOpt b (remapOpt b' opt) = remapOpt b opt := by
  fin_cases h <;> cases b <;> cases b' <;> decide

theorem remap_mem_density (opt : String) (h : opt ∈ densityOpts) (b : Bool) :
    remapOpt b opt ∈ densityOpts := by
  fin_cases h <;> cases b <;> decide

theorem probStep_quantile_qnone_zero {X P R : Type} (discrete : String → Bool)
    (scipyD : String → String → X → P → R)
    (scipyQ : String → String → List ℚ → P → R) (scipyS : String → P → R)
    (d : String) (ds : List String) (p : P) (ps : List P) (x : Option X)
    (numq : Nat) (acc : List R) (opt : String) (hopt : opt = "ppf" ∨ opt = "isf") :
    probStep discrete scipyD scipyQ scipyS (d :: ds) (p :: ps) x Option.none numq (opt, acc) 0
      = Except.error (.valueError "RELIAPY: q cannot be NoneType.") := by
  rcases hopt with rfl | rfl <;> cases hb : discrete d <;>
    simp [probStep, remapOpt, densityOpts, quantileOpts, listIndex_cons_zero,
      except_bind_ok, except_bind_error, hb]

theorem probStep_quantile_badq_zero {X P R : Type} (discrete : String → Bool)
    (scipyD : String → String → X → P → R)
    (scipyQ : String → String → List ℚ → P → R) (scipyS : String → P → R)
    (d : String) (ds : List String) (p : P) (ps : List P) (x : Option X)
    (ql : List ℚ) (numq : Nat) (acc : List R) (opt : String) (e : PyError)
    (hopt : opt = "ppf" ∨ opt = "isf") (hq : checkQ ql numq = .error e) :
    probStep discrete scipyD scipyQ scipyS (d :: ds) (p :: ps) x (some ql) numq (opt, acc) 0
      = Except.error e := by
  rcases hopt with rfl | rfl <;> cases hb : discrete d <;>
    simp [probStep, remapOpt, densityOpts, quantileOpts, listIndex_cons_zero,
      except_bind_ok, except_bind_error, hb, hq]

theorem probStep_density_xnone_zero {X P R : Type} (discrete : String → Bool)
    (scipyD : String → String → X → P → R)
    (scipyQ : String → String → List ℚ → P → R) (scipyS : String → P → R)
    (d : String) (ds : List String) (p : P) (ps : List P)
    (qv : Option (List ℚ)) (numq : Nat) (acc : List R) (opt : String)
    (hopt : opt ∈ densityOpts) :
    probStep discrete scipyD scipyQ scipyS (d :: ds) (p :: ps) Option.none qv numq (opt, acc) 0
      = Except.error (.valueError "RELIAPY: x cannot be NoneType.") := by
  fin_cases hopt <;> cases hb : discrete d <;>
    simp [probStep, remapOpt, densityOpts, quantileOpts, listIndex_cons_zero,
      except_bind_ok, except_bind_error, hb]

theorem probStep_density_zero {X P R : Type} (discrete : String → Bool)
    (scipyD : String → String → X → P → R)
    (scipyQ : String → String → List ℚ → P → R) (scipyS : String → P → R)
    (d : String) (ds : List String) (p : P) (ps : List P) (xv : X)
    (qv : Option (List ℚ)) (numq : Nat) (acc : List R) (opt : String)
    (hopt : opt ∈ densityOpts) :
    probStep discrete scipyD scipyQ scipyS (d :: ds) (p :: ps) (some xv) qv numq (opt, acc) 0
      = Except.ok (remapOpt (discrete d) opt,
          acc ++ [scipyD d (remapOpt (discrete d) opt) xv p]) := by
  fin_cases hopt <;> cases hb : discrete d <;>
    simp [probStep, remapOpt, densityOpts, quantileOpts, listIndex_cons_zero,
      except_bind_ok, except_bind_error, hb]

theorem checkQ_error_of_bad :
    ∀ ql : List ℚ, (∃ j, j < ql.length ∧ (ql.getD j 0 < 0 ∨ 1 < ql.getD j 0)) →
      checkQ ql ql.length
        = .error (.valueError "RELIAPY: q cannot be lower than zero or larger than one.") := by
  intro ql
  induction ql with
  | nil => rintro ⟨j, hj, _⟩; simp at hj
  | cons c cs ih =>
      rintro ⟨j, hj, hbad⟩
      simp only [checkQ, List.length_cons, List.range_succ_eq_map, List.foldlM_cons]
      by_cases hc : c < 0 ∨ c > 1
      · have hstep : (do
            let qj ← listIndex (c :: cs) 0
            if qj < 0 ∨ qj > 1 then
              Except.error (PyError.valueError
                "RELIAPY: q cannot be lower than zero or larger than one.")
            else Except.ok ())
              = (Except.error (PyError.valueError
                  "RELIAPY: q cannot be lower than zero or larger than one.")
                : Except PyError Unit) := by
          simp [listIndex_cons_zero, except_bind_ok, hc]
        rw [hstep, except_bind_error]
      · have hj0 : j ≠ 0 := by
          rintro rfl
          simp only [List.getD_cons_zero] at hbad
          exact hc (by tauto)
        obtain ⟨j', rfl⟩ : ∃ j', j = j' + 1 := ⟨j - 1, by omega⟩
        have hstep : (do
            let qj ← listIndex (c :: cs) 0
            if qj < 0 ∨ qj > 1 then
              Except.error (PyError.valueError
                "RELIAPY: q cannot be lower than zero or larger than one.")
            else Except.ok ()) = (Except.ok () : Except PyError Unit) := by
          simp [listIndex_cons_zero, except_bind_ok, hc]
        rw [hstep, except_bind_ok]
        simp only [List.foldlM_map, Nat.succ_eq_add_one, listIndex_cons_succ]
        have hih := ih ⟨j', by simpa using hj, by simpa using hbad⟩
        simpa [checkQ] using hih

theorem probFold_density_ok {X P R : Type} (discrete : String → Bool)
    (scipyD : String → String → X → P → R)
    (scipyQ : String → String → List ℚ → P → R) (scipyS : String → P → R)
    (xv : X) (qv : Option (List ℚ)) (numq : Nat) (pd : P) :
    ∀ (k : Nat) (ds : List String) (ps : List P) (opt : String) (acc : List R),
      opt ∈ densityOpts → k ≤ ds.length → k ≤ ps.length →
      ∃ optEnd : String,
        (List.range k).foldlM
            (probStep discrete scipyD scipyQ scipyS ds ps (some xv) qv numq) (opt, acc)
          = .ok (optEnd, acc ++ (List.range k).map fun i =>
              scipyD (ds.getD i "") (remapOpt (discrete (ds.getD i "")) opt) xv
                (ps.getD i pd)) := by
  intro k
  induction k with
  | zero =>
      intro ds ps opt acc _ _ _
      refine ⟨opt, ?_⟩
      simp only [List.range_zero, List.foldlM_nil, List.map_nil, List.append_nil]
      rfl
  | succ k ih =>
      intro ds ps opt acc hopt hds hps
      cases ds with
      | nil => simp at hds
      | cons d ds =>
          cases ps with
          | nil => simp at hps
          | cons p ps =>
              have hds' : k ≤ ds.length := by
                simp only [List.length_cons] at hds; omega
              have hps' : k ≤ ps.length := by
                simp only [List.length_cons] at hps; omega
              rw [List.range_succ_eq_map, List.foldlM_cons,
                probStep_density_zero discrete scipyD scipyQ scipyS d ds p ps xv qv numq
                  acc opt hopt, except_bind_ok]
              simp only [List.foldlM_map, Nat.succ_eq_add_one, probStep_succ]
              obtain ⟨optEnd, hEnd⟩ := ih ds ps (remapOpt (discrete d) opt)
                (acc ++ [scipyD d (remapOpt (discrete d) opt) xv p])
                (remap_mem_density opt hopt (discrete d)) hds' hps'
              refine ⟨optEnd, ?_⟩
              rw [hEnd]
              simp [List.map_map, Function.comp_def, remap_remap opt hopt]

theorem probability_error_head {X P R : Type} (v : Variables) (discrete : String → Bool)
    (scipyD : String → String → X → P → R)
    (scipyQ : String → String → List ℚ → P → R) (scipyS : String → P → R)
    (x : Option X) (q : PyQ) (parameters : List P) (opt : String) (e : PyError)
    (k : Nat) (hk : v.nrv = k + 1) (d : String) (ds : List String)
    (hds : v.distributions = d :: ds) (p : P) (ps : List P)
    (hps : parameters = p :: ps)
    (hstep : probStep discrete scipyD scipyQ scipyS (d :: ds) (p :: ps) x
        (qNorm q).2 (qNorm q).1 ((if opt = "icdf" then "ppf" else opt), []) 0
      = .error e) :
    v.probability discrete scipyD scipyQ scipyS x q parameters opt = .error e := by
  simp only [Variables.probability]
  rw [hk, hds, hps, List.range_succ_eq_map, List.foldlM_cons, hstep,
    except_bind_error, except_bind_error]

/-- C7: `probability` with a quantile option (`ppf` or `isf`, with `icdf`
first remapped to `ppf`) raises `ValueError` when `q` is `None` and when
some element `q[j]` is below 0 or above 1 — the conclusion holds for every
abstracted quantile routine `scipyQ`, so the error is decided before any
statistics-library quantile routine is invoked; with a
density/distribution option (`pdf`, `pmf`, `cdf`, `logpdf`, `logpmf`,
`logcdf`, `sf`) it raises `ValueError` when `x` is `None`, and otherwise
appends one forwarded statistics-library result per random variable. -/
theorem claim_C7_probability {X P R : Type} (v : Variables) (discrete : String → Bool)
    (scipyD : String → String → X → P → R)
    (scipyQ : String → String → List ℚ → P → R) (scipyS : String → P → R)
    (x : Option X) (xv : X) (q : PyQ) (pd : P) (parameters : List P)
    (optq optd : String) (ql : List ℚ)
    (h1 : v.nrv = v.distributions.length) (h2 : v.nrv ≤ parameters.length)
    (hn : 1 ≤ v.nrv)
    (hoptq : optq = "ppf" ∨ optq = "isf" ∨ optq = "icdf")
    (hoptd : optd ∈ densityOpts)
    (hbad : ∃ j, j < ql.length ∧ (ql.getD j 0 < 0 ∨ 1 < ql.getD j 0)) :
    v.probability discrete scipyD scipyQ scipyS x PyQ.none parameters optq
        = .error (.valueError "RELIAPY: q cannot be NoneType.") ∧
      v.probability discrete scipyD scipyQ scipyS x (PyQ.list ql) parameters optq
        = .error (.valueError "RELIAPY: q cannot be lower than zero or larger than one.") ∧
      v.probability discrete scipyD scipyQ scipyS Option.none q parameters optd
        = .error (.valueError "RELIAPY: x cannot be NoneType.") ∧
      v.probability discrete scipyD scipyQ scipyS (some xv) q parameters optd
        = .ok ((List.range v.nrv).map fun i =>
            scipyD (v.distributions.getD i "")
              (remapOpt (discrete (v.distributions.getD i "")) optd) xv
              (parameters.getD i pd)) ∧
      ((List.range v.nrv).map fun i =>
          scipyD (v.distributions.getD i "")
            (remapOpt (discrete (v.distributions.getD i "")) optd) xv
            (parameters.getD i pd)).length = v.nrv := by
  obtain ⟨k, hk⟩ : ∃ k, v.nrv = k + 1 := ⟨v.nrv - 1, by omega⟩
  have hif : (if optd = "icdf" then "ppf" else optd) = optd := by
    fin_cases hoptd <;> simp
  have hifq : (if optq = "icdf" then "ppf" else optq) = "ppf" ∨
      (if optq = "icdf" then "ppf" else optq) = "isf" := by
    rcases hoptq with rfl | rfl | rfl <;> simp
  obtain ⟨d, ds, hds⟩ : ∃ d ds, v.distributions = d :: ds := by
    cases hl : v.distributions with
    | nil => exfalso; rw [hl] at h1; simp at h1; omega
    | cons a l => exact ⟨a, l, rfl⟩
  obtain ⟨p, ps, hps⟩ : ∃ p ps, parameters = p :: ps := by
    cases hl : parameters with
    | nil => exfalso; rw [hl] at h2; simp at h2; omega
    | cons a l => exact ⟨a, l, rfl⟩
  refine ⟨?_, ?_, ?_, ?_, ?_⟩
  · exact probability_error_head v discrete scipyD scipyQ scipyS x PyQ.none
      parameters optq _ k hk d ds hds p ps hps
      (probStep_quantile_qnone_zero discrete scipyD scipyQ scipyS d ds p ps x 0
        [] _ hifq)
  · exact probability_error_head v discrete scipyD scipyQ scipyS x (PyQ.list ql)
      parameters optq _ k hk d ds hds p ps hps
      (probStep_quantile_badq_zero discrete scipyD scipyQ scipyS d ds p ps x ql
        ql.length [] _ _ hifq (checkQ_error_of_bad ql hbad))
  · refine probability_error_head v discrete scipyD scipyQ scipyS Option.none q
      parameters optd _ k hk d ds hds p ps hps ?_
    rw [hif]
    exact probStep_density_xnone_zero discrete scipyD scipyQ scipyS d ds p ps
      (qNorm q).2 (qNorm q).1 [] optd hoptd
  · simp only [Variables.probability]
    rw [hif]
    obtain ⟨optEnd, hEnd⟩ := probFold_density_ok discrete scipyD scipyQ scipyS
      xv (qNorm q).2 (qNorm q).1 pd v.nrv v.distributions parameters optd []
      hoptd h1.le h2
    rw [hEnd, except_bind_ok]
    simp
  · simp

theorem claim_C7_probability_witness :
    (⟨["norm"], 1⟩ : Variables).probability (fun _ => false)
        (fun d o (_ : ℚ) (_ : ℚ) => (d, o)) (fun d o _ _ => (d, o))
        (fun d _ => (d, "stats")) (some 3) PyQ.none [5] "ppf"
      = .error (.valueError "RELIAPY: q cannot be NoneType.") ∧
    (⟨["norm"], 1⟩ : Variables).probability (fun _ => false)
        (fun d o (_ : ℚ) (_ : ℚ) => (d, o)) (fun d o _ _ => (d, o))
        (fun d _ => (d, "stats")) (some 3) (PyQ.list [2]) [5] "ppf"
      = .error (.valueError "RELIAPY: q cannot be lower than zero or larger than one.") ∧
    (⟨["norm"], 1⟩ : Variables).probability (fun _ => false)
        (fun d o (_ : ℚ) (_ : ℚ) => (d, o)) (fun d o _ _ => (d, o))
        (fun d _ => (d, "stats")) Option.none PyQ.none [5] "pdf"
      = .error (.valueError "RELIAPY: x cannot be NoneType.") ∧
    (⟨["norm"], 1⟩ : Variables).probability (fun _ => false)
        (fun d o (_ : ℚ) (_ : ℚ) => (d, o)) (fun d o _ _ => (d, o))
        (fun d _ => (d, "stats")) (some 3) PyQ.none [5] "pdf"
      = .ok ((List.range (⟨["norm"], 1⟩ : Variables).nrv).map fun i =>
          ((⟨["norm"], 1⟩ : Variables).distributions.getD i "",
            remapOpt false "pdf")) ∧
    ((List.range (⟨["norm"], 1⟩ : Variables).nrv).map fun i =>
        ((⟨["norm"], 1⟩ : Variables).distributions.getD i "",
          remapOpt false "pdf")).length = (⟨["norm"], 1⟩ : Variables).nrv := by
  have h := claim_C7_probability (⟨["norm"], 1⟩ : Variables) (fun _ => false)
    (fun d o (_ : ℚ) (_ : ℚ) => (d, o)) (fun d o _ _ => (d, o))
    (fun d _ => (d, "stats")) (some 3) 3 PyQ.none 0 [5] "ppf" "pdf" [2]
    rfl (by decide) (by decide) (Or.inl rfl) (by decide)
    ⟨0, by decide, Or.inr (by decide)⟩
  exact h

/- ------------------------------------------------------------------ -/
/- MonteCarlo.py: the (first) MonteCarlo class and its distance method -/

/-- A numpy matrix, embedded as its list of rows with rational entries;
the column slice `A[:, :r]` keeps the first `r` entries of each row. -/
abbrev Mat := List (List ℚ)

/-- `np.asarray(psi[ii])[:, :rank]`: truncate a matrix to its first
`rank` columns. -/
def colTrunc (A : Mat) (r : Nat) : Mat := A.map (fun row => row.take r)

/-- `itertools.combinations(range(n), 2)`: the pairs `(i, j)` with
`i < j < n`, listed as `[(i, j) for i in range(n) for j in range(i+1, n)]`
— pair `(0, 1)` first, then increasing second index, then increasing
first index. -/
def combinations2 (n : Nat) : List (Nat × Nat) :=
  (List.range n).flatMap (fun i => (List.range' (i + 1) (n - (i + 1))).map (fun j => (i, j)))

/-- `MonteCarlo.distance(*argv, **kwargs)` (`MonteCarlo.py` lines
151-228), with the external pieces abstracted: `distance_fun` is the
distance function the method resolves from `distance_object` /
`distance_script`, and `matrix_rank` abstracts
`numpy.linalg.matrix_rank`, used when no `rank` keyword is supplied.
The body: `nargs = len(argv[0])`; take the user rank list or compute the
ranks; raise `ValueError` when fewer than two matrices are given, `elif`
when the rank list length differs from `nargs`; then for each pair from
`itertools.combinations(range(nargs), 2)` truncate the two matrices to
their ranks' columns and append their distance. -/
def MonteCarlo.distance {D : Type} (distance_fun : Mat → Mat → D)
    (matrix_rank : Mat → Nat) (psi : List Mat) (rank : Option (List Nat)) :
    Except PyError (List D) :=
  let nargs := psi.length
  let ranks := match rank with
    | Option.none => psi.map matrix_rank
    | some rs => rs
  if nargs < 2 then
    .error (.valueError "Two matrices or more MUST be provided.")
  else if ranks.length ≠ nargs then
    .error (.valueError
      "The number of elements in rank and in the input data MUST be the same.")
  else
    (combinations2 nargs).foldlM (fun acc pr => do
      let rank0 ← listIndex ranks pr.1
      let rank1 ← listIndex ranks pr.2
      let x0 ← listIndex psi pr.1
      let x1 ← listIndex psi pr.2
      pure (acc ++ [distance_fun (colTrunc x0 rank0) (colTrunc x1 rank1)])) []

/- Lemmas for MonteCarlo.distance -/

theorem listIndex_ok {α : Type} (d : α) :
    ∀ (xs : List α) (i : Nat), i < xs.length → listIndex xs i = .ok (xs.getD i d) := by
  intro xs
  induction xs with
  | nil => intro i h; simp at h
  | cons a l ih =>
      intro i h
      cases i with
      | zero => rfl
      | succ i =>
          rw [listIndex_cons_succ, List.getD_cons_succ]
          exact ih i (by simp at h; omega)

theorem combinations2_mem {n : Nat} {p : Nat × Nat} (h : p ∈ combinations2 n) :
    p.1 < p.2 ∧ p.2 < n := by
  simp only [combinations2, List.mem_flatMap, List.mem_map, List.mem_range] at h
  obtain ⟨i, hi, j, hj, rfl⟩ := h
  rw [List.mem_range'_1] at hj
  constructor <;> simp <;> omega

theorem list_sum_range (f : Nat → Nat) (n : Nat) :
    ((List.range n).map f).sum = ∑ i ∈ Finset.range n, f i := by
  induction n with
  | zero => simp
  | succ n ih =>
      rw [List.range_succ, List.map_append, List.sum_append, Finset.sum_range_succ, ih]
      simp

theorem combinations2_length (n : Nat) :
    (combinations2 n).length = n * (n - 1) / 2 := by
  rw [combinations2, List.length_flatMap]
  have hmap : List.map (List.length ∘ fun i =>
        (List.range' (i + 1) (n - (i + 1))).map (fun j => (i, j))) (List.range n)
      = (List.range n).map (fun i => n - (i + 1)) := by
    simp [Function.comp_def]
  rw [hmap, list_sum_range]
  have hcongr : ∑ i ∈ Finset.range n, (n - (i + 1)) = ∑ i ∈ Finset.range n, (n - 1 - i) :=
    Finset.sum_congr rfl (fun i _ => by omega)
  rw [hcongr, Finset.sum_range_reflect (fun j => j) n, Finset.sum_range_id]

theorem combinations2_pairwise (n : Nat) :
    (combinations2 n).Pairwise
      (fun p q => p.1 < q.1 ∨ (p.1 = q.1 ∧ p.2 < q.2)) := by
  rw [combinations2, List.pairwise_flatMap]
  constructor
  · intro i _
    rw [List.pairwise_map]
    exact (List.pairwise_lt_range' (i + 1) (n - (i + 1))).imp
      (fun hab => Or.inr ⟨rfl, hab⟩)
  · refine (List.pairwise_lt_range n).imp ?_
    intro a b hab x hx y hy
    simp only [List.mem_map] at hx hy
    obtain ⟨j, _, rfl⟩ := hx
    obtain ⟨j', _, rfl⟩ := hy
    exact Or.inl hab

theorem distance_foldlM_ok {D : Type} (distance_fun : Mat → Mat → D)
    (ranks : List Nat) (psi : List Mat) :
    ∀ (pairs : List (Nat × Nat)) (acc : List D),
      (∀ p ∈ pairs, p.1 < ranks.length ∧ p.2 < ranks.length ∧
        p.1 < psi.length ∧ p.2 < psi.length) →
      pairs.foldlM (fun acc pr => do
          let rank0 ← listIndex ranks pr.1
          let rank1 ← listIndex ranks pr.2
          let x0 ← listIndex psi pr.1
          let x1 ← listIndex psi pr.2
          pure (acc ++ [distance_fun (colTrunc x0 rank0) (colTrunc x1 rank1)])) acc
        = .ok (acc ++ pairs.map fun pr =>
            distance_fun (colTrunc (psi.getD pr.1 []) (ranks.getD pr.1 0))
              (colTrunc (psi.getD pr.2 []) (ranks.getD pr.2 0))) := by
  intro pairs
  induction pairs with
  | nil =>
      intro acc _
      simp only [List.foldlM_nil, List.map_nil, List.append_nil]
      rfl
  | cons pr rest ih =>
      intro acc hb
      have h0 := hb pr (List.mem_cons_self pr rest)
      rw [List.foldlM_cons]
      simp only [listIndex_ok 0 ranks pr.1 h0.1, listIndex_ok 0 ranks pr.2 h0.2.1,
        listIndex_ok [] psi pr.1 h0.2.2.1, listIndex_ok [] psi pr.2 h0.2.2.2,
        except_bind_ok, pure_bind]
      rw [ih (acc ++ [distance_fun (colTrunc (psi.getD pr.1 []) (ranks.getD pr.1 0))
            (colTrunc (psi.getD pr.2 []) (ranks.getD pr.2 0))])
        (fun p hp => hb p (List.mem_cons_of_mem pr hp))]
      simp

/-- C5: `MonteCarlo.distance` raises `ValueError` when given fewer than
two matrices, and (for `n ≥ 2`) when the user-supplied rank list's length
differs from the number `n` of matrices; otherwise — with a well-sized
user rank list, or with ranks computed by the matrix-rank routine when no
rank keyword is supplied — it returns the list of pairwise distances of
the column-truncated inputs for all the unordered pairs of distinct
inputs, in `itertools.combinations` order: the pair list has length
`n*(n-1)/2` and is ordered with increasing second index within increasing
first index (so pair `(0, 1)` comes first). -/
theorem claim_C5_distance {D : Type} (distance_fun : Mat → Mat → D)
    (matrix_rank : Mat → Nat) (m psi : List Mat) (rs rs' : List Nat)
    (rank : Option (List Nat)) (hm : m.length < 2) (h2 : 2 ≤ psi.length)
    (hrs : rs.length ≠ psi.length) (hrs' : rs'.length = psi.length) :
    MonteCarlo.distance distance_fun matrix_rank m rank
        = .error (.valueError "Two matrices or more MUST be provided.") ∧
      MonteCarlo.distance distance_fun matrix_rank psi (some rs)
        = .error (.valueError
            "The number of elements in rank and in the input data MUST be the same.") ∧
      MonteCarlo.distance distance_fun matrix_rank psi (some rs')
        = .ok ((combinations2 psi.length).map fun pr =>
            distance_fun (colTrunc (psi.getD pr.1 []) (rs'.getD pr.1 0))
              (colTrunc (psi.getD pr.2 []) (rs'.getD pr.2 0))) ∧
      MonteCarlo.distance distance_fun matrix_rank psi Option.none
        = .ok ((combinations2 psi.length).map fun pr =>
            distance_fun (colTrunc (psi.getD pr.1 []) ((psi.map matrix_rank).getD pr.1 0))
              (colTrunc (psi.getD pr.2 []) ((psi.map matrix_rank).getD pr.2 0))) ∧
      (combinations2 psi.length).length = psi.length * (psi.length - 1) / 2 ∧
      (combinations2 psi.length).Pairwise
        (fun p q => p.1 < q.1 ∨ (p.1 = q.1 ∧ p.2 < q.2)) := by
  have hn : ¬ psi.length < 2 := by omega
  refine ⟨?_, ?_, ?_, ?_, combinations2_length psi.length,
    combinations2_pairwise psi.length⟩
  · simp [MonteCarlo.distance, hm]
  · simp [MonteCarlo.distance, hn, hrs]
  · simp only [MonteCarlo.distance, hn, if_false, hrs', ne_eq, not_true_eq_false,
      reduceIte]
    rw [distance_foldlM_ok distance_fun rs' psi (combinations2 psi.length) []
      (fun p hp => by
        obtain ⟨hlt, hn'⟩ := combinations2_mem hp
        exact ⟨by omega, by omega, by omega, by omega⟩)]
    simp
  · simp only [MonteCarlo.distance, hn, if_false]
    have hlen : ¬ (psi.map matrix_rank).length ≠ psi.length := by simp
    simp only [hlen, if_false, reduceIte, ne_eq, not_true_eq_false, List.length_map,
      not_false_eq_true]
    rw [distance_foldlM_ok distance_fun (psi.map matrix_rank) psi
      (combinations2 psi.length) []
      (fun p hp => by
        obtain ⟨hlt, hn'⟩ := combinations2_mem hp
        simp only [List.length_map]
        exact ⟨by omega, by omega, by omega, by omega⟩)]
    simp

theorem claim_C5_distance_witness :
    MonteCarlo.distance (fun A B : Mat => A.length + B.length) (fun A => A.length)
        [[[1]]] Option.none
        = .error (.valueError "Two matrices or more MUST be provided.") ∧
      MonteCarlo.distance (fun A B : Mat => A.length + B.length) (fun A => A.length)
        [[[1]], [[2]]] (some [0])
        = .error (.valueError
            "The number of elements in rank and in the input data MUST be the same.") ∧
      MonteCarlo.distance (fun A B : Mat => A.length + B.length) (fun A => A.length)
        [[[1]], [[2]]] (some [1, 1])
        = .ok ((combinations2 ([[[1]], [[2]]] : List Mat).length).map fun pr =>
            (colTrunc (([[[1]], [[2]]] : List Mat).getD pr.1 []) ([1, 1].getD pr.1 0)).length
              + (colTrunc (([[[1]], [[2]]] : List Mat).getD pr.2 []) ([1, 1].getD pr.2 0)).length) ∧
      MonteCarlo.distance (fun A B : Mat => A.length + B.length) (fun A => A.length)
        [[[1]], [[2]]] Option.none
        = .ok ((combinations2 ([[[1]], [[2]]] : List Mat).length).map fun pr =>
            (colTrunc (([[[1]], [[2]]] : List Mat).getD pr.1 [])
                ((([[[1]], [[2]]] : List Mat).map List.length).getD pr.1 0)).length
              + (colTrunc (([[[1]], [[2]]] : List Mat).getD pr.2 [])
                ((([[[1]], [[2]]] : List Mat).map List.length).getD pr.2 0)).length) ∧
      (combinations2 ([[[1]], [[2]]] : List Mat).length).length
          = ([[[1]], [[2]]] : List Mat).length * (([[[1]], [[2]]] : List Mat).length - 1) / 2 ∧
      (combinations2 ([[[1]], [[2]]] : List Mat).length).Pairwise
        (fun p q => p.1 < q.1 ∨ (p.1 = q.1 ∧ p.2 < q.2)) :=
  claim_C5_distance (fun A B : Mat => A.length + B.length) (fun A => A.length)
    [[[1]]] [[[1]], [[2]]] [0] [1, 1] Option.none
    (by decide) (by decide) (by decide) rfl
